import Mathlib

/-!
Verification development for the letsraffle-api repository.

The development shallowly embeds the parts of the code that the verified
properties speak about:

* `app/utils/draw_date.py` — the draw-date timezone normalizer and validator
  (`normalize_and_validate_draw_date`).
* `app/tasks/draw.py` — the scheduler sweep (`execute_scheduled_draw_task`)
  and the email step of `process_draw` (`_send_draw_result_emails`).
* `app/services/email_service.py` — the notification dispatcher
  (`send_draw_results_to_all_participants`).
* The matching engine (`compute_assignment` inside the draw execution
  service) is not part of the provided sources; it is modelled from the
  spec, as marked on its definition.

Conventions of the embedding:

* Python `datetime` values are records of civil fields plus an optional
  fixed UTC offset in minutes.  The IANA zone `Europe/Istanbul` is modelled
  as the fixed offset UTC+03:00, which is exact for all instants since
  September 2016 (Turkey abolished DST then); all concrete inputs used in
  the development are in that range.
* Calendar arithmetic uses the standard civil-from-days / days-from-civil
  algorithms with floor division (`Int.fdiv`), which agrees with Python's
  floor-division semantics.
* The wall clock (`datetime.now(timezone.utc)`) and the database session
  are passed explicitly; Celery task dispatch (`process_draw.delay`) is
  recorded as a list of dispatched draw ids; the SES transport is an
  oracle function from recipient email to success.
* A `fault` parameter marks the point where an unexpected exception is
  raised inside a `try` block, mirroring the `except Exception` handlers
  of the Python code.
-/

/-! ## Calendar arithmetic (proleptic Gregorian, days since 1970-01-01) -/

/-- Number of days from 1970-01-01 to the civil date y-m-d
(proleptic Gregorian calendar, floor-division formulation). -/
def daysFromCivil (y : Int) (m d : Nat) : Int :=
  let yy : Int := if m ≤ 2 then y - 1 else y
  let era : Int := Int.fdiv yy 400
  let yoe : Int := yy - era * 400
  let mp : Nat := if 3 ≤ m then m - 3 else m + 9
  let doy : Int := Int.fdiv (153 * (mp : Int) + 2) 5 + (d : Int) - 1
  let doe : Int := yoe * 365 + Int.fdiv yoe 4 - Int.fdiv yoe 100 + doy
  era * 146097 + doe - 719468

/-- Civil date: year, month (1..12), day (1..31). -/
structure CivilDate where
  year : Int
  month : Nat
  day : Nat
deriving DecidableEq, Repr

/-- Civil date of a day count relative to 1970-01-01 (inverse of
`daysFromCivil`). -/
def civilFromDays (z : Int) : CivilDate :=
  let zz : Int := z + 719468
  let era : Int := Int.fdiv zz 146097
  let doe : Int := zz - era * 146097
  let yoe : Int := Int.fdiv (doe - Int.fdiv doe 1460 + Int.fdiv doe 36524 - Int.fdiv doe 146096) 365
  let y : Int := yoe + era * 400
  let doy : Int := doe - (365 * yoe + Int.fdiv yoe 4 - Int.fdiv yoe 100)
  let mp : Int := Int.fdiv (5 * doy + 2) 153
  let d : Int := doy - Int.fdiv (153 * mp + 2) 5 + 1
  let m : Int := if mp < 10 then mp + 3 else mp - 9
  { year := if m ≤ 2 then y + 1 else y, month := m.toNat, day := d.toNat }

/-! ## Python datetime model -/

/-- Model of a Python `datetime.datetime`: civil fields plus an optional
timezone, where a timezone is a fixed UTC offset in minutes (`none` means
the value is naive).  `Europe/Istanbul` is the fixed offset +180 (exact
since September 2016). -/
structure PyDateTime where
  year : Int
  month : Nat
  day : Nat
  hour : Nat
  minute : Nat
  second : Nat
  microsecond : Nat
  tzOffsetMinutes : Option Int
deriving DecidableEq, Repr

/-- Offset, in minutes, of the Europe/Istanbul zone (UTC+03:00, fixed since
September 2016; Turkey no longer observes DST). -/
def istanbulOffsetMinutes : Int := 180

/-- Microseconds from the epoch to the civil reading of a datetime,
ignoring its timezone. -/
def naiveMicros (d : PyDateTime) : Int :=
  ((daysFromCivil d.year d.month d.day) * 86400
    + (d.hour : Int) * 3600 + (d.minute : Int) * 60 + (d.second : Int)) * 1000000
    + (d.microsecond : Int)

/-- The UTC instant (microseconds from the epoch) denoted by an aware
datetime; a naive datetime is read with offset 0.  Python compares aware
datetimes by this instant. -/
def instantMicros (d : PyDateTime) : Int :=
  naiveMicros d - (d.tzOffsetMinutes.getD 0) * 60 * 1000000

/-- The aware UTC datetime whose instant is t microseconds from the epoch
(the result of `astimezone(timezone.utc)`). -/
def utcOfMicros (t : Int) : PyDateTime :=
  let us : Int := Int.fmod t 1000000
  let s : Int := Int.fdiv t 1000000
  let sod : Int := Int.fmod s 86400
  let days : Int := Int.fdiv s 86400
  let c := civilFromDays days
  { year := c.year, month := c.month, day := c.day
    hour := (Int.fdiv sod 3600).toNat
    minute := (Int.fmod (Int.fdiv sod 60) 60).toNat
    second := (Int.fmod sod 60).toNat
    microsecond := us.toNat
    tzOffsetMinutes := some 0 }

/-- Model of Python's `str.upper()` for ASCII language codes. -/
def pyUpper (s : String) : String := String.mk (s.data.map Char.toUpper)

/-! ## app/utils/draw_date.py -/

/-- Timezone-attachment step of `normalize_and_validate_draw_date` (lines
51-57): a naive datetime gets `Europe/Istanbul` when `language.upper()`
is TR and UTC otherwise; an aware datetime is used as-is. -/
def attachTimezone (d : PyDateTime) (language : String) : PyDateTime :=
  match d.tzOffsetMinutes with
  | some _ => d
  | none =>
    if pyUpper language = "TR" then
      { d with tzOffsetMinutes := some istanbulOffsetMinutes }
    else
      { d with tzOffsetMinutes := some 0 }

/-- UTC-conversion step of `normalize_and_validate_draw_date` (line 60):
`draw_date.astimezone(timezone.utc)`. -/
def astimezoneUtc (d : PyDateTime) : PyDateTime :=
  utcOfMicros (instantMicros d)

/-- Embedding of `normalize_and_validate_draw_date` from
`app/utils/draw_date.py`.  The wall clock `datetime.now(timezone.utc)` is
the explicit parameter `nowMicros` (UTC microseconds from the epoch); a
raised `ValueError` is `Except.error` with the message. -/
def normalize_and_validate_draw_date (nowMicros : Int)
    (draw_date : Option PyDateTime) (language : String) :
    Except String (Option PyDateTime) :=
  match draw_date with
  | none => Except.ok none
  | some d0 =>
    let d1 := attachTimezone d0 language
    let d := astimezoneUtc d1
    if instantMicros d ≤ nowMicros then
      Except.error "drawDate must be in the future"
    else if d.year ≠ (utcOfMicros nowMicros).year then
      Except.error ("drawDate must be in the current year ("
        ++ toString (utcOfMicros nowMicros).year ++ ")")
    else if d.minute ≠ 0 ∨ d.second ≠ 0 then
      Except.error "drawDate must be at exact hour (e.g., 13:00, not 13:33)"
    else
      Except.ok (some d)

/-- A UTC instant lies exactly on an hour boundary. -/
def onHourBoundary (d : PyDateTime) : Prop :=
  Int.fmod (instantMicros d) 3600000000 = 0

instance (d : PyDateTime) : Decidable (onHourBoundary d) := by
  unfold onHourBoundary; infer_instance

example : daysFromCivil 1970 1 1 = 0 := by decide
example : civilFromDays 20468 = { year := 2026, month := 1, day := 15 } := by decide
example :
    normalize_and_validate_draw_date 0
      (some { year := 1970, month := 6, day := 1, hour := 13, minute := 0,
              second := 0, microsecond := 0, tzOffsetMinutes := none }) "tr"
    = Except.ok (some { year := 1970, month := 6, day := 1, hour := 10, minute := 0,
                        second := 0, microsecond := 0, tzOffsetMinutes := some 0 }) := by
  rfl

/-! ## Matching engine (draw execution service) -/

/-- Modelled from the spec: the matching engine `compute_assignment` lives in
the draw execution service (`app/services/draw_service.py`), which is not
among the provided sources.  Following the spec, the engine draws a random
permutation of the id sequence and, at any position that maps an id to
itself, repairs the fixed point by swapping with a neighboring position
(the last position, having no right neighbor, swaps with its left
neighbor).  The random permutation is the explicit parameter of
`compute_assignment`; `repairReceivers` is the fixed-point repair sweep
over givers and their tentative receivers. -/
def repairReceivers : List Nat → List Nat → List Nat
  | g1 :: g2 :: g3 :: gs, r1 :: r2 :: rs =>
    if r1 = g1 then r2 :: repairReceivers (g2 :: g3 :: gs) (r1 :: rs)
    else r1 :: repairReceivers (g2 :: g3 :: gs) (r2 :: rs)
  | [g1, g2], [r1, r2] =>
    if r1 = g1 ∨ r2 = g2 then [r2, r1] else [r1, r2]
  | _, r => r

/-- Modelled from the spec: `compute_assignment` pairs each participant id
(giver) with the id at the same position of the repaired random
permutation (receiver).  `perm` stands for the drawn random permutation of
`participant_ids`. -/
def compute_assignment (participant_ids : List Nat) (perm : List Nat) :
    List (Nat × Nat) :=
  List.zip participant_ids (repairReceivers participant_ids perm)

/-- Repair only permutes the tentative receivers. -/
theorem repairReceivers_perm :
    ∀ (g r : List Nat), List.Perm (repairReceivers g r) r
  | g1 :: g2 :: g3 :: gs, r1 :: r2 :: rs => by
    by_cases h : r1 = g1
    · simp only [repairReceivers, if_pos h]
      exact List.Perm.trans
        (List.Perm.cons r2 (repairReceivers_perm (g2 :: g3 :: gs) (r1 :: rs)))
        (List.Perm.swap r1 r2 rs)
    · simp only [repairReceivers, if_neg h]
      exact List.Perm.cons r1 (repairReceivers_perm (g2 :: g3 :: gs) (r2 :: rs))
  | [g1, g2], [r1, r2] => by
    by_cases h : r1 = g1 ∨ r2 = g2
    · simp only [repairReceivers, if_pos h]
      exact List.Perm.swap r1 r2 []
    · simp only [repairReceivers, if_neg h]
      exact List.Perm.refl _
  | [], r => List.Perm.refl r
  | [g1], r => by
    cases r with
    | nil => exact List.Perm.refl _
    | cons a as =>
      cases as with
      | nil => exact List.Perm.refl _
      | cons b bs => exact List.Perm.refl _
  | g1 :: g2 :: g3 :: gs, [] => List.Perm.refl _
  | g1 :: g2 :: g3 :: gs, [r1] => List.Perm.refl _
  | [g1, g2], [] => List.Perm.refl _
  | [g1, g2], [r1] => List.Perm.refl _
  | [g1, g2], r1 :: r2 :: r3 :: rs => List.Perm.refl _

/-- After the repair sweep no position pairs an id with itself, provided the
givers are distinct, the tentative receivers are distinct, the two lists
have the same length and there are at least two positions. -/
theorem repairReceivers_no_fix :
    ∀ (g r : List Nat), g.Nodup → r.Nodup → g.length = r.length →
      2 ≤ g.length → ∀ p ∈ List.zip g (repairReceivers g r), p.1 ≠ p.2
  | g1 :: g2 :: g3 :: gs, r1 :: r2 :: rs, hg, hr, hlen, _ => by
    have hg2 : (g2 :: g3 :: gs).Nodup := hg.of_cons
    have hr1 : r1 ∉ (r2 :: rs) ∧ (r2 :: rs).Nodup := List.nodup_cons.mp hr
    have hlen2 : (g2 :: g3 :: gs).length = (r2 :: rs).length := by
      simpa using hlen
    have hge2 : 2 ≤ (g2 :: g3 :: gs).length := by simp
    have hr12 : r1 ≠ r2 := by
      intro he; exact hr1.1 (by simp [he])
    by_cases h : r1 = g1
    · simp only [repairReceivers, if_pos h]
      intro p hp
      rw [List.zip_cons_cons] at hp
      rcases List.mem_cons.mp hp with hhead | htail
      · subst hhead; simp only [ne_eq]; omega
      · have hr1n : (r1 :: rs).Nodup := by
          refine List.nodup_cons.mpr ⟨?_, hr1.2.of_cons⟩
          intro hmem
          exact hr1.1 (List.mem_cons.mpr (Or.inr hmem))
        have hlen1 : (g2 :: g3 :: gs).length = (r1 :: rs).length := by
          simpa using hlen
        exact repairReceivers_no_fix (g2 :: g3 :: gs) (r1 :: rs)
          hg2 hr1n hlen1 hge2 p htail
    · simp only [repairReceivers, if_neg h]
      intro p hp
      rw [List.zip_cons_cons] at hp
      rcases List.mem_cons.mp hp with hhead | htail
      · subst hhead; simp only [ne_eq]; omega
      · exact repairReceivers_no_fix (g2 :: g3 :: gs) (r2 :: rs)
          hg2 hr1.2 hlen2 hge2 p htail
  | [g1, g2], [r1, r2], hg, hr, _, _ => by
    have hgne : g1 ≠ g2 := by simpa using (List.nodup_cons.mp hg).1
    have hrne : r1 ≠ r2 := by simpa using (List.nodup_cons.mp hr).1
    by_cases h : r1 = g1 ∨ r2 = g2
    · simp only [repairReceivers, if_pos h]
      intro p hp
      rcases h with hcase | hcase <;>
        rcases (by simpa using hp : p = (g1, r2) ∨ p = (g2, r1)) with h1 | h1 <;>
          subst h1 <;> simp only [ne_eq] <;> omega
    · simp only [repairReceivers, if_neg h]
      push_neg at h
      intro p hp
      rcases (by simpa using hp : p = (g1, r1) ∨ p = (g2, r2)) with h1 | h1 <;>
        subst h1 <;> simp only [ne_eq] <;> omega
  | [], r, _, _, _, hlen => by simp at hlen
  | [g1], r, _, _, _, hlen => by simp at hlen
  | g1 :: g2 :: g3 :: gs, [], _, _, hlen, _ => by simp at hlen
  | g1 :: g2 :: g3 :: gs, [r1], _, _, hlen, _ => by simp at hlen
  | [g1, g2], [], _, _, hlen, _ => by simp at hlen
  | [g1, g2], [r1], _, _, hlen, _ => by simp at hlen
  | [g1, g2], r1 :: r2 :: r3 :: rs, _, _, hlen, _ => by simp at hlen

/-! ## app/tasks/draw.py — scheduler sweep -/

/-- Draw lifecycle states (`DrawStatus` in `app/models/draw.py`). -/
inductive DrawStatus where
  | active
  | in_progress
  | completed
  | cancelled
deriving DecidableEq, Repr

/-- A row of the draws table, with the columns the sweep reads:
`draw_date` is the scheduled time stored in UTC (microseconds from the
epoch), `none` when unscheduled. -/
structure DrawRow where
  id : Nat
  draw_date : Option Int
  status : DrawStatus
  language : String
deriving DecidableEq, Repr

/-- A row of the participants table (`Participant` in `app/models/draw.py`):
the sweep reads `draw_id`, the notification dispatcher reads the contact
fields. -/
structure ParticipantRow where
  id : Nat
  draw_id : Nat
  first_name : String
  last_name : String
  email : String
  phone : Option String
  address : Option String
deriving DecidableEq, Repr

/-- The relational store as visible to the sweep. -/
structure DB where
  draws : List DrawRow
  participants : List ParticipantRow
deriving DecidableEq, Repr

/-- Membership test `Draw.status.in_([ACTIVE, IN_PROGRESS])` of the
selection query. -/
def statusEligible (s : DrawStatus) : Bool :=
  match s with
  | .active => true
  | .in_progress => true
  | .completed => false
  | .cancelled => false

/-- Selection predicate of the sweep query (lines 45-51): `draw_date` is
non-null, `draw_date <= now`, and status in {ACTIVE, IN_PROGRESS}. -/
def dueFilter (now : Int) (d : DrawRow) : Bool :=
  match d.draw_date with
  | none => false
  | some t => decide (t ≤ now) && statusEligible d.status

/-- Number of participant rows of a given draw
(`db.query(Participant).filter(Participant.draw_id == draw.id).count()`). -/
def countFor (parts : List ParticipantRow) (did : Nat) : Nat :=
  (parts.filter (fun p => p.draw_id == did)).length

/-- The admission re-check of the sweep: at least 3 participants. -/
def sufficientFor (parts : List ParticipantRow) (d : DrawRow) : Bool :=
  decide (3 ≤ countFor parts d.id)

/-- Effect of `draw.status = DrawStatus.IN_PROGRESS.value; db.commit()`:
the row with the draw's id gets the new status. -/
def setStatus (db : DB) (did : Nat) (st : DrawStatus) : DB :=
  { db with draws := db.draws.map (fun d => if d.id = did then { d with status := st } else d) }

/-- Entry of the `processed_draws` list of the sweep summary. -/
structure ProcessedEntry where
  draw_id : Nat
  draw_date : Option Int
  language : String
deriving DecidableEq, Repr

/-- Entry of the `skipped_draws` list of the sweep summary. -/
structure SkippedEntry where
  draw_id : Nat
  reason : String
  participant_count : Nat
deriving DecidableEq, Repr

/-- Return value of `execute_scheduled_draw_task`: the empty-selection
dict, the full success dict, or the dict built by the
`except Exception` handler (lines 104-110). -/
inductive SweepResult where
  | noDraws
  | done (processed : List ProcessedEntry) (skipped : List SkippedEntry)
  | error (message : String)
deriving DecidableEq, Repr

/-- The `draws_processed` field of the returned dict: the length of
`processed_draws` on success, and the literal 0 of both the
empty-selection return and the error return. -/
def SweepResult.draws_processed : SweepResult → Nat
  | .noDraws => 0
  | .done p _ => p.length
  | .error _ => 0

/-- The `status` field of the returned dict. -/
def SweepResult.statusStr : SweepResult → String
  | .noDraws => "success"
  | .done _ _ => "success"
  | .error _ => "error"

/-- The `processed_draws` list of the returned dict (empty when absent). -/
def SweepResult.processedList : SweepResult → List ProcessedEntry
  | .done p _ => p
  | _ => []

/-- The `skipped_draws` list of the returned dict (empty when absent). -/
def SweepResult.skippedList : SweepResult → List SkippedEntry
  | .done _ s => s
  | _ => []

/-- The summary entry the sweep appends for a processed draw. -/
def procEntry (d : DrawRow) : ProcessedEntry :=
  { draw_id := d.id, draw_date := d.draw_date, language := d.language }

/-- The summary entry the sweep appends for a skipped draw. -/
def skipEntry (parts : List ParticipantRow) (d : DrawRow) : SkippedEntry :=
  { draw_id := d.id, reason := "insufficient_participants"
    participant_count := countFor parts d.id }

/-- Loop body of `execute_scheduled_draw_task` (lines 64-86) over the
selected draws, threading the database, the two summary lists and the
trace of ids handed to `process_draw.delay`.  `fault` is a countdown to
the point where an unexpected exception interrupts the loop: `some k`
raises at the start of the k-th remaining iteration, sending control to
the `except Exception` handler, which returns the error dict; the
statuses already committed stay committed (the `finally` block only
closes the session). -/
def sweepLoop : DB → List DrawRow → Option Nat →
    List ProcessedEntry → List SkippedEntry → List Nat →
    SweepResult × DB × List Nat
  | db, [], _, proc, skip, disp => (.done proc.reverse skip.reverse, db, disp.reverse)
  | db, _ :: _, some 0, _, _, disp =>
    (.error "Error executing scheduled draws", db, disp.reverse)
  | db, d :: rest, fault, proc, skip, disp =>
    let fault2 := fault.map (fun n => n - 1)
    if sufficientFor db.participants d then
      sweepLoop (setStatus db d.id .in_progress) rest fault2
        (procEntry d :: proc) skip (d.id :: disp)
    else
      sweepLoop db rest fault2 proc (skipEntry db.participants d :: skip) disp

/-- Embedding of `execute_scheduled_draw_task` from `app/tasks/draw.py`.
The wall clock is the explicit parameter `now`; the returned triple is
the summary dict, the database as left by the task, and the ids handed
to `process_draw.delay` in order. -/
def execute_scheduled_draw_task (db : DB) (now : Int) (fault : Option Nat) :
    SweepResult × DB × List Nat :=
  let selected := db.draws.filter (dueFilter now)
  if selected.isEmpty then (.noDraws, db, [])
  else sweepLoop db selected fault [] [] []

/-- Combined effect of the status commits of one sweep run: every draw row
whose id is among the claimed ids is set to `in_progress`. -/
def claimAll (db : DB) (ids : List Nat) : DB :=
  { db with draws := db.draws.map (fun d => if d.id ∈ ids then { d with status := .in_progress } else d) }

@[simp] theorem setStatus_participants (db : DB) (i : Nat) (st : DrawStatus) :
    (setStatus db i st).participants = db.participants := rfl

@[simp] theorem claimAll_participants (db : DB) (ids : List Nat) :
    (claimAll db ids).participants = db.participants := rfl

@[simp] theorem claimAll_nil (db : DB) : claimAll db [] = db := by
  simp [claimAll]

theorem claimAll_setStatus (db : DB) (i : Nat) (ids : List Nat) :
    claimAll (setStatus db i .in_progress) ids = claimAll db (i :: ids) := by
  have h : ((fun d : DrawRow => if d.id ∈ ids then { d with status := DrawStatus.in_progress } else d) ∘
      (fun d : DrawRow => if d.id = i then { d with status := DrawStatus.in_progress } else d))
      = fun d : DrawRow => if d.id ∈ i :: ids then { d with status := DrawStatus.in_progress } else d := by
    funext d
    by_cases h1 : d.id = i <;> by_cases h2 : d.id ∈ ids <;>
      simp [Function.comp, h1, h2]
  simp [claimAll, setStatus, List.map_map, h]

/-- Closed form of the sweep loop when no exception occurs: the summary
lists, the database and the dispatch trace are each read off the
selected queue, split by the participant-count re-check. -/
theorem sweepLoop_none_spec :
    ∀ (queue : List DrawRow) (db : DB) (proc : List ProcessedEntry)
      (skip : List SkippedEntry) (disp : List Nat),
      sweepLoop db queue none proc skip disp =
        (.done
          (proc.reverse ++ (queue.filter (sufficientFor db.participants)).map procEntry)
          (skip.reverse ++
            (queue.filter (fun d => !sufficientFor db.participants d)).map
              (skipEntry db.participants)),
         claimAll db ((queue.filter (sufficientFor db.participants)).map (fun d => d.id)),
         disp.reverse ++ (queue.filter (sufficientFor db.participants)).map (fun d => d.id))
  | [], db, proc, skip, disp => by
    simp [sweepLoop]
  | d :: rest, db, proc, skip, disp => by
    cases hs : sufficientFor db.participants d with
    | true =>
      simp only [sweepLoop, Option.map_none', hs, if_pos]
      rw [sweepLoop_none_spec rest (setStatus db d.id .in_progress)]
      simp [List.filter_cons, hs, claimAll_setStatus, List.append_assoc]
    | false =>
      simp only [sweepLoop, Option.map_none', hs, if_neg, Bool.false_eq_true,
        not_false_iff]
      rw [sweepLoop_none_spec rest db]
      simp [List.filter_cons, hs, List.append_assoc]

/-- Closed form of the sweep loop when an unexpected exception interrupts
it at the k-th remaining candidate: the error dict is returned and the
database keeps the status commits of the first k candidates. -/
theorem sweepLoop_fault_spec :
    ∀ (queue : List DrawRow) (k : Nat) (db : DB) (proc : List ProcessedEntry)
      (skip : List SkippedEntry) (disp : List Nat),
      k < queue.length →
      sweepLoop db queue (some k) proc skip disp =
        (.error "Error executing scheduled draws",
         claimAll db
           (((queue.take k).filter (sufficientFor db.participants)).map (fun d => d.id)),
         disp.reverse ++
           ((queue.take k).filter (sufficientFor db.participants)).map (fun d => d.id))
  | [], k, db, proc, skip, disp, hk => by simp at hk
  | d :: rest, 0, db, proc, skip, disp, hk => by
    simp [sweepLoop]
  | d :: rest, Nat.succ n, db, proc, skip, disp, hk => by
    have hn : n < rest.length := by simpa using hk
    cases hs : sufficientFor db.participants d with
    | true =>
      simp only [sweepLoop, Option.map_some', Nat.succ_sub_one, hs, if_pos]
      rw [sweepLoop_fault_spec rest n (setStatus db d.id .in_progress) _ _ _ hn]
      simp [List.take_succ_cons, List.filter_cons, hs, claimAll_setStatus,
        List.append_assoc]
    | false =>
      simp only [sweepLoop, Option.map_some', Nat.succ_sub_one, hs, if_neg,
        Bool.false_eq_true, not_false_iff]
      rw [sweepLoop_fault_spec rest n db _ _ _ hn]
      simp [List.take_succ_cons, List.filter_cons, hs]

/-! ## app/services/email_service.py -/

/-- A row of the draw results table (`DrawResult` in `app/models/draw.py`). -/
structure DrawResultRow where
  id : Nat
  giver_participant_id : Nat
  receiver_participant_id : Nat
deriving DecidableEq, Repr

/-- Python dict insertion (`results[k] = v`): replace the value at an
existing key in place, otherwise append the pair. -/
def dictInsert {K V : Type} [DecidableEq K] :
    List (K × V) → K → V → List (K × V)
  | [], k, v => [(k, v)]
  | (k0, v0) :: rest, k, v =>
    if k0 = k then (k0, v) :: rest else (k0, v0) :: dictInsert rest k v

/-- Python `dict.get(k)`. -/
def dictGet {K V : Type} [DecidableEq K] : List (K × V) → K → Option V
  | [], _ => none
  | (k0, v0) :: rest, k => if k0 = k then some v0 else dictGet rest k

/-- Python dict built from a list of key-value pairs (later keys win). -/
def dictOfList {K V : Type} [DecidableEq K] (l : List (K × V)) : List (K × V) :=
  l.foldl (fun m kv => dictInsert m kv.1 kv.2) []

/-- One entry of `EmailService.TEMPLATE_CONFIG`. -/
structure TemplateConfig where
  template : String
  subject : String
  not_provided : String
deriving DecidableEq, Repr

/-- The Turkish entry of `TEMPLATE_CONFIG`. -/
def trTemplateConfig : TemplateConfig :=
  { template := "email-template-tr.html"
    subject := "🎄 Yılbaşı Çekiliş Sonucu"
    not_provided := "Belirtilmemiş" }

/-- The English entry of `TEMPLATE_CONFIG`. -/
def enTemplateConfig : TemplateConfig :=
  { template := "email-template-en.html"
    subject := "🎄 Secret Santa Draw Result"
    not_provided := "Not provided" }

/-- The `TEMPLATE_CONFIG` dictionary, keyed by language value. -/
def TEMPLATE_CONFIG (language : String) : Option TemplateConfig :=
  if language = "EN" then some enTemplateConfig
  else if language = "TR" then some trTemplateConfig
  else none

/-- Embedding of `_get_template_config`: defaults to the Turkish entry for
an unrecognized language value. -/
def get_template_config (language : String) : TemplateConfig :=
  (TEMPLATE_CONFIG language).getD trTemplateConfig

/-- Context passed to the Jinja2 template by `_build_template_context`. -/
structure TemplateContext where
  participant_name : String
  target_name : String
  target_email : String
  target_phone : String
  target_address : String
deriving DecidableEq, Repr

/-- Embedding of `_build_template_context`.  Python's `x or fallback`
yields the fallback on both `None` and the empty string. -/
def build_template_context (giver receiver : ParticipantRow)
    (language : String) : TemplateContext :=
  let config := get_template_config language
  let orElse : Option String → String := fun s =>
    match s with
    | none => config.not_provided
    | some v => if v = "" then config.not_provided else v
  { participant_name := giver.first_name ++ " " ++ giver.last_name
    target_name := receiver.first_name ++ " " ++ receiver.last_name
    target_email := receiver.email
    target_phone := orElse receiver.phone
    target_address := orElse receiver.address }

/-- Embedding of `send_draw_result_email`: the rendered template is sent
to the giver's address through SES.  The transport (SES together with the
rendering pipeline) is the oracle `transport`; a transport or rendering
exception is caught by the function and yields `false`, so the oracle
value is the returned success flag. -/
def send_draw_result_email (transport : String → Bool) (_draw : DrawRow)
    (giver _receiver : ParticipantRow) : Bool :=
  transport giver.email

/-- A draw result is resolvable when both its participant ids are keys of
the participants dictionary (the check of `_validate_participants`). -/
def resolvable (pd : List (Nat × ParticipantRow)) (dr : DrawResultRow) : Bool :=
  (dictGet pd dr.giver_participant_id).isSome &&
    (dictGet pd dr.receiver_participant_id).isSome

/-- Loop of `send_draw_results_to_all_participants` (lines 166-178) over
the draw results, building the email-to-success dict and, as an
observable trace, the list of (giver id, receiver id) pairs for which a
send was attempted. -/
def notifyLoop (transport : String → Bool) (draw : DrawRow) :
    List DrawResultRow → List (Nat × ParticipantRow) →
    List (String × Bool) → List (Nat × Nat) →
    List (String × Bool) × List (Nat × Nat)
  | [], _, results, attempts => (results, attempts.reverse)
  | dr :: rest, pd, results, attempts =>
    match dictGet pd dr.giver_participant_id,
        dictGet pd dr.receiver_participant_id with
    | some giver, some receiver =>
      notifyLoop transport draw rest pd
        (dictInsert results giver.email
          (send_draw_result_email transport draw giver receiver))
        ((dr.giver_participant_id, dr.receiver_participant_id) :: attempts)
    | _, _ => notifyLoop transport draw rest pd results attempts

/-- Embedding of `send_draw_results_to_all_participants`: returns the
email-to-success dict of the Python function together with the trace of
attempted sends. -/
def send_draw_results_to_all_participants (transport : String → Bool)
    (draw : DrawRow) (draw_results : List DrawResultRow)
    (participants_dict : List (Nat × ParticipantRow)) :
    List (String × Bool) × List (Nat × Nat) :=
  notifyLoop transport draw draw_results participants_dict [] []

/-- Return value of `_send_draw_result_emails` in `app/tasks/draw.py`:
either the sent/total summary or an `email_error` dict. -/
inductive EmailSummary where
  | sent (emails_sent emails_total : Nat)
  | emailError (message : String)
deriving DecidableEq, Repr

/-- Embedding of `_send_draw_result_emails` from `app/tasks/draw.py`.
`fault` marks an unexpected exception anywhere inside the `try` block;
the handler logs and returns an `email_error` dict.  The database session
is returned alongside the summary: the function only reads it, on every
path. -/
def send_draw_result_emails_task (db : DB) (draw_id : Nat)
    (draw_results : List DrawResultRow) (transport : String → Bool)
    (fault : Bool) : EmailSummary × DB :=
  if fault then (.emailError "unexpected", db)
  else
    match db.draws.find? (fun d => d.id == draw_id) with
    | none => (.emailError "Draw not found after execution", db)
    | some draw =>
      let participants_dict := dictOfList
        ((db.participants.filter (fun p => p.draw_id == draw.id)).map
          (fun p => (p.id, p)))
      let results := (send_draw_results_to_all_participants transport draw
        draw_results participants_dict).1
      (.sent (results.filter (fun kv => kv.2 == true)).length results.length, db)

theorem dictGet_dictInsert {K V : Type} [DecidableEq K] :
    ∀ (m : List (K × V)) (k k2 : K) (v : V),
      dictGet (dictInsert m k v) k2 = if k2 = k then some v else dictGet m k2
  | [], k, k2, v => by
    by_cases h : k2 = k
    · subst h; simp [dictInsert, dictGet]
    · simp [dictInsert, dictGet, h, Ne.symm h]
  | (k0, v0) :: rest, k, k2, v => by
    by_cases hk : k0 = k
    · subst hk
      by_cases h2 : k0 = k2
      · subst h2
        simp [dictInsert, dictGet]
      · simp [dictInsert, dictGet, h2, Ne.symm h2]
    · simp only [dictInsert, if_neg hk, dictGet]
      rw [dictGet_dictInsert rest k k2 v]
      by_cases h2 : k0 = k2
      · subst h2
        simp [hk]
      · simp [h2]

/-- Giver emails of the resolvable draw results, in order. -/
def resolvedGiverEmails (pd : List (Nat × ParticipantRow)) (rs : List DrawResultRow) :
    List String :=
  rs.filterMap (fun dr =>
    match dictGet pd dr.giver_participant_id, dictGet pd dr.receiver_participant_id with
    | some g, some _ => some g.email
    | _, _ => none)

/-- The dispatcher's attempted sends are exactly the resolvable results. -/
theorem notifyLoop_attempts (t : String → Bool) (draw : DrawRow) :
    ∀ (rs : List DrawResultRow) (pd : List (Nat × ParticipantRow))
      (results : List (String × Bool)) (attempts : List (Nat × Nat)),
      (notifyLoop t draw rs pd results attempts).2 =
        attempts.reverse ++ (rs.filter (resolvable pd)).map
          (fun dr => (dr.giver_participant_id, dr.receiver_participant_id))
  | [], pd, results, attempts => by simp [notifyLoop]
  | dr :: rest, pd, results, attempts => by
    cases hg : dictGet pd dr.giver_participant_id with
    | none =>
      simp only [notifyLoop, hg]
      rw [notifyLoop_attempts t draw rest]
      simp [List.filter_cons, resolvable, hg]
    | some g =>
      cases hr : dictGet pd dr.receiver_participant_id with
      | none =>
        simp only [notifyLoop, hg, hr]
        rw [notifyLoop_attempts t draw rest]
        simp [List.filter_cons, resolvable, hg, hr]
      | some r =>
        simp only [notifyLoop, hg, hr]
        rw [notifyLoop_attempts t draw rest]
        simp [List.filter_cons, resolvable, hg, hr, List.append_assoc]

/-- Skipping a non-resolvable result is the same as filtering it away
before the loop. -/
theorem notifyLoop_filter (t : String → Bool) (draw : DrawRow) :
    ∀ (rs : List DrawResultRow) (pd : List (Nat × ParticipantRow))
      (results : List (String × Bool)) (attempts : List (Nat × Nat)),
      notifyLoop t draw rs pd results attempts =
        notifyLoop t draw (rs.filter (resolvable pd)) pd results attempts
  | [], pd, results, attempts => by simp
  | dr :: rest, pd, results, attempts => by
    cases hg : dictGet pd dr.giver_participant_id with
    | none =>
      simp only [notifyLoop, hg, List.filter_cons]
      rw [notifyLoop_filter t draw rest]
      simp [resolvable, hg]
    | some g =>
      cases hr : dictGet pd dr.receiver_participant_id with
      | none =>
        simp only [notifyLoop, hg, hr, List.filter_cons]
        rw [notifyLoop_filter t draw rest]
        simp [resolvable, hg, hr]
      | some r =>
        have hres : resolvable pd dr = true := by simp [resolvable, hg, hr]
        simp only [List.filter_cons, hres, if_pos]
        simp only [notifyLoop, hg, hr]
        exact notifyLoop_filter t draw rest pd _ _

/-- Closed form of the email-to-success dict: a giver email of some
resolvable result maps to its transport outcome; no other key is
present. -/
theorem notifyLoop_mapping (t : String → Bool) (draw : DrawRow) :
    ∀ (rs : List DrawResultRow) (pd : List (Nat × ParticipantRow))
      (results : List (String × Bool)) (attempts : List (Nat × Nat)) (e : String),
      dictGet (notifyLoop t draw rs pd results attempts).1 e =
        if e ∈ resolvedGiverEmails pd rs then some (t e) else dictGet results e
  | [], pd, results, attempts, e => by simp [notifyLoop, resolvedGiverEmails]
  | dr :: rest, pd, results, attempts, e => by
    cases hg : dictGet pd dr.giver_participant_id with
    | none =>
      simp only [notifyLoop, hg]
      rw [notifyLoop_mapping t draw rest]
      simp [resolvedGiverEmails, List.filterMap_cons, hg]
    | some g =>
      cases hr : dictGet pd dr.receiver_participant_id with
      | none =>
        simp only [notifyLoop, hg, hr]
        rw [notifyLoop_mapping t draw rest]
        simp [resolvedGiverEmails, List.filterMap_cons, hg, hr]
      | some r =>
        simp only [notifyLoop, hg, hr]
        rw [notifyLoop_mapping t draw rest]
        have hemails : resolvedGiverEmails pd (dr :: rest)
            = g.email :: resolvedGiverEmails pd rest := by
          simp [resolvedGiverEmails, List.filterMap_cons, hg, hr]
        rw [hemails]
        by_cases hmem : e ∈ resolvedGiverEmails pd rest
        · simp [hmem]
        · by_cases heq : e = g.email
          · subst heq
            simp [hmem, dictGet_dictInsert, send_draw_result_email]
          · simp [hmem, heq, dictGet_dictInsert, send_draw_result_email]

/-! ## Claims -/

/-- C1: for every sequence of N distinct participant ids with N >= 3 and
every drawn random permutation of it, compute_assignment returns exactly
N (giver, receiver) pairs such that each id appears exactly once as giver,
exactly once as receiver, and no pair has giver equal to receiver (the
assignment is a derangement of the participant set). -/
theorem compute_assignment_derangement (ids perm : List Nat)
    (hnodup : ids.Nodup) (hperm : List.Perm perm ids) (hlen : 3 ≤ ids.length) :
    (compute_assignment ids perm).length = ids.length ∧
    (compute_assignment ids perm).map Prod.fst = ids ∧
    List.Perm ((compute_assignment ids perm).map Prod.snd) ids ∧
    ∀ p ∈ compute_assignment ids perm, p.1 ≠ p.2 := by
  have hplen : perm.length = ids.length := hperm.length_eq
  have hrep : List.Perm (repairReceivers ids perm) perm := repairReceivers_perm ids perm
  have hreplen : (repairReceivers ids perm).length = ids.length := by
    rw [hrep.length_eq, hplen]
  refine ⟨?_, ?_, ?_, ?_⟩
  · simp [compute_assignment, hreplen]
  · exact List.map_fst_zip _ _ (le_of_eq hreplen.symm)
  · rw [compute_assignment, List.map_snd_zip _ _ (le_of_eq hreplen)]
    exact hrep.trans hperm
  · intro p hp
    exact repairReceivers_no_fix ids perm hnodup
      (hperm.nodup_iff.mpr hnodup) hplen.symm (by omega) p hp

/-- Witness for C1 at ids [1, 2, 3] with the identity permutation drawn
(the worst case for fixed points). -/
theorem compute_assignment_derangement_witness :
    (compute_assignment [1, 2, 3] [1, 2, 3]).map Prod.fst = [1, 2, 3] ∧
    List.Perm ((compute_assignment [1, 2, 3] [1, 2, 3]).map Prod.snd) [1, 2, 3] ∧
    ∀ p ∈ compute_assignment [1, 2, 3] [1, 2, 3], p.1 ≠ p.2 := by
  have h := compute_assignment_derangement [1, 2, 3] [1, 2, 3]
    (by decide) (by decide) (by decide)
  exact ⟨h.2.1, h.2.2.1, h.2.2.2⟩

/-- Helper: a concrete participant row for test databases. -/
def mkP (i did : Nat) (em : String) : ParticipantRow :=
  { id := i, draw_id := did, first_name := "First", last_name := "Last"
    email := em, phone := none, address := none }

theorem dueFilter_elim (now : Int) (d : DrawRow) (h : dueFilter now d = true) :
    statusEligible d.status = true ∧ ∃ t, d.draw_date = some t ∧ t ≤ now := by
  cases hd : d.draw_date with
  | none => simp [dueFilter, hd] at h
  | some t =>
    simp only [dueFilter, hd, Bool.and_eq_true, decide_eq_true_eq] at h
    exact ⟨h.2, t, rfl, h.1⟩

theorem mem_claimAll_of_mem (db : DB) (ids : List Nat) (d : DrawRow)
    (hd : d ∈ db.draws) (h : d.id ∈ ids) :
    { d with status := DrawStatus.in_progress } ∈ (claimAll db ids).draws := by
  have hmem := List.mem_map_of_mem
    (fun r : DrawRow => if r.id ∈ ids then { r with status := DrawStatus.in_progress } else r) hd
  simpa [claimAll, h] using hmem

theorem mem_claimAll_of_not_mem (db : DB) (ids : List Nat) (d : DrawRow)
    (hd : d ∈ db.draws) (h : d.id ∉ ids) :
    d ∈ (claimAll db ids).draws := by
  have hmem := List.mem_map_of_mem
    (fun r : DrawRow => if r.id ∈ ids then { r with status := DrawStatus.in_progress } else r) hd
  simpa [claimAll, h] using hmem

/-- Closed form of the whole task when the selection is empty. -/
theorem task_spec_empty (db : DB) (now : Int) (fault : Option Nat)
    (h : db.draws.filter (dueFilter now) = []) :
    execute_scheduled_draw_task db now fault = (.noDraws, db, []) := by
  unfold execute_scheduled_draw_task
  rw [h]
  rfl

/-- Closed form of the whole task on a nonempty selection with no fault. -/
theorem task_spec (db : DB) (now : Int)
    (h : db.draws.filter (dueFilter now) ≠ []) :
    execute_scheduled_draw_task db now none =
      (SweepResult.done
        (((db.draws.filter (dueFilter now)).filter (sufficientFor db.participants)).map
          procEntry)
        (((db.draws.filter (dueFilter now)).filter
            (fun d => !sufficientFor db.participants d)).map (skipEntry db.participants)),
       claimAll db
         (((db.draws.filter (dueFilter now)).filter (sufficientFor db.participants)).map
           (fun d => d.id)),
       ((db.draws.filter (dueFilter now)).filter (sufficientFor db.participants)).map
         (fun d => d.id)) := by
  unfold execute_scheduled_draw_task
  dsimp only
  split
  · next hemp => exact absurd (by simpa using hemp) h
  · rw [sweepLoop_none_spec]
    simp

/-- Closed form of the whole task when a fault interrupts it at the k-th
selected candidate. -/
theorem task_spec_fault (db : DB) (now : Int) (k : Nat)
    (hk : k < (db.draws.filter (dueFilter now)).length) :
    execute_scheduled_draw_task db now (some k) =
      (SweepResult.error "Error executing scheduled draws",
       claimAll db
         ((((db.draws.filter (dueFilter now)).take k).filter
             (sufficientFor db.participants)).map (fun d => d.id)),
       (((db.draws.filter (dueFilter now)).take k).filter
         (sufficientFor db.participants)).map (fun d => d.id)) := by
  unfold execute_scheduled_draw_task
  dsimp only
  split
  · next hemp =>
    rw [show db.draws.filter (dueFilter now) = [] by simpa using hemp] at hk
    simp at hk
  · rw [sweepLoop_fault_spec _ _ _ _ _ _ hk]
    simp

/-- A due Active draw with 3 participants. -/
def drawC2 : DrawRow := { id := 1, draw_date := some 0, status := .active, language := "TR" }

/-- Database with one due Active draw and its 3 participants. -/
def dbC2 : DB :=
  { draws := [drawC2]
    participants := [mkP 1 1 "a@example.com", mkP 2 1 "b@example.com", mkP 3 1 "c@example.com"] }

/-- Counterexample to C2 as stated: the sweep dispatches draw 1 and leaves
it InProgress, and a second sweep run at the same now selects and
dispatches the very same draw again, because the selection predicate also
admits InProgress draws. -/
theorem sweep_redispatch_counterexample :
    (execute_scheduled_draw_task dbC2 0 none).2.2 = [1] ∧
    (execute_scheduled_draw_task
        (execute_scheduled_draw_task dbC2 0 none).2.1 0 none).2.2 = [1] :=
  ⟨rfl, rfl⟩

/-- C2 amended: every draw the sweep dispatches was Active or InProgress at
selection time, and its status is set (only) to InProgress, which still
satisfies the selection predicate; hence a second sweep run at the same or
any later now selects and dispatches the same draw again as long as it
remains InProgress.  The draw stops being selected only once its status
leaves {Active, InProgress} (for example when the execution service marks
it Completed). -/
theorem sweep_dispatch_amended (db : DB) (now now2 : Int) (hnow : now ≤ now2) :
    (∀ i ∈ (execute_scheduled_draw_task db now none).2.2,
      ∃ d ∈ db.draws, d.id = i ∧ statusEligible d.status = true) ∧
    (∀ i ∈ (execute_scheduled_draw_task db now none).2.2,
      i ∈ (execute_scheduled_draw_task
            (execute_scheduled_draw_task db now none).2.1 now2 none).2.2) := by
  by_cases hsel : db.draws.filter (dueFilter now) = []
  · rw [task_spec_empty db now none hsel]
    exact ⟨fun i hi => absurd hi (by simp), fun i hi => absurd hi (by simp)⟩
  · rw [task_spec db now hsel]
    constructor
    · intro i hi
      rcases List.mem_map.mp hi with ⟨d2, hd2, hid⟩
      have hd2sel := (List.mem_filter.mp hd2).1
      exact ⟨d2, (List.mem_filter.mp hd2sel).1, hid,
        (dueFilter_elim now d2 (List.mem_filter.mp hd2sel).2).1⟩
    · intro i hi
      rcases List.mem_map.mp hi with ⟨d2, hd2, hid⟩
      have hd2f := List.mem_filter.mp hd2
      have hd2sel := hd2f.1
      have hsuff := hd2f.2
      have hd2draws := (List.mem_filter.mp hd2sel).1
      obtain ⟨helig, t, hdate, hle⟩ := dueFilter_elim now d2 (List.mem_filter.mp hd2sel).2
      have hidmem : d2.id ∈ ((db.draws.filter (dueFilter now)).filter
          (sufficientFor db.participants)).map (fun d => d.id) :=
        List.mem_map_of_mem _ hd2
      have hmem2 : { d2 with status := DrawStatus.in_progress } ∈
          (claimAll db (((db.draws.filter (dueFilter now)).filter
            (sufficientFor db.participants)).map (fun d => d.id))).draws :=
        mem_claimAll_of_mem db _ d2 hd2draws hidmem
      have hdue2 : dueFilter now2 { d2 with status := DrawStatus.in_progress } = true := by
        simp only [dueFilter, hdate, statusEligible, Bool.and_true]
        exact decide_eq_true_eq.mpr (le_trans hle hnow)
      have hsuff2 : sufficientFor db.participants
          { d2 with status := DrawStatus.in_progress } = true := by
        simpa [sufficientFor] using hsuff
      have hmem2sel : { d2 with status := DrawStatus.in_progress } ∈
          (claimAll db (((db.draws.filter (dueFilter now)).filter
            (sufficientFor db.participants)).map (fun d => d.id))).draws.filter
              (dueFilter now2) :=
        List.mem_filter.mpr ⟨hmem2, hdue2⟩
      rw [task_spec _ now2 (List.ne_nil_of_mem hmem2sel)]
      have hmem3 : { d2 with status := DrawStatus.in_progress } ∈
          ((claimAll db (((db.draws.filter (dueFilter now)).filter
            (sufficientFor db.participants)).map (fun d => d.id))).draws.filter
              (dueFilter now2)).filter
            (sufficientFor (claimAll db (((db.draws.filter (dueFilter now)).filter
              (sufficientFor db.participants)).map (fun d => d.id))).participants) := by
        refine List.mem_filter.mpr ⟨hmem2sel, ?_⟩
        simpa using hsuff2
      have hfin := List.mem_map_of_mem (fun d : DrawRow => d.id) hmem3
      simpa [← hid] using hfin

/-- Witness for the amended C2: with the concrete database dbC2 the draw
dispatched by the first sweep is dispatched again by the second. -/
theorem sweep_dispatch_amended_witness :
    1 ∈ (execute_scheduled_draw_task
          (execute_scheduled_draw_task dbC2 0 none).2.1 0 none).2.2 :=
  (sweep_dispatch_amended dbC2 0 0 le_rfl).2 1 (by decide)

/-- C3: for every database state and UTC timestamp now, the sweep considers
exactly the draws with a non-null scheduled date that is <= now and status
Active or InProgress: the processed and skipped summary lists together
enumerate precisely the ids of the draws satisfying the selection
predicate, and a draw failing any of the three conditions appears in
neither list. -/
theorem sweep_selection_exact (db : DB) (now : Int)
    (hnodup : (db.draws.map (fun d => d.id)).Nodup) :
    List.Perm
      (((execute_scheduled_draw_task db now none).1.processedList.map (fun e => e.draw_id)) ++
        ((execute_scheduled_draw_task db now none).1.skippedList.map (fun e => e.draw_id)))
      ((db.draws.filter (dueFilter now)).map (fun d => d.id)) ∧
    (∀ d ∈ db.draws, dueFilter now d = false →
      d.id ∉ (execute_scheduled_draw_task db now none).1.processedList.map (fun e => e.draw_id) ∧
      d.id ∉ (execute_scheduled_draw_task db now none).1.skippedList.map (fun e => e.draw_id)) := by
  by_cases hsel : db.draws.filter (dueFilter now) = []
  · rw [task_spec_empty db now none hsel, hsel]
    exact ⟨by simp [SweepResult.processedList, SweepResult.skippedList],
      fun d hd hf => by simp [SweepResult.processedList, SweepResult.skippedList]⟩
  · rw [task_spec db now hsel]
    constructor
    · have hperm := List.filter_append_perm (sufficientFor db.participants)
        (db.draws.filter (dueFilter now))
      have hmapped := hperm.map (fun d : DrawRow => d.id)
      simpa [SweepResult.processedList, SweepResult.skippedList, List.map_map,
        Function.comp, procEntry, skipEntry] using hmapped
    · intro d hd hfalse
      have key : ∀ p : DrawRow → Bool,
          d.id ∉ ((db.draws.filter (dueFilter now)).filter p).map (fun x => x.id) := by
        intro p hmem
        rcases List.mem_map.mp hmem with ⟨d2, hd2, heq⟩
        have hd2sel := (List.mem_filter.mp hd2).1
        have hd2due := (List.mem_filter.mp hd2sel).2
        have hdd : d2 = d :=
          List.inj_on_of_nodup_map hnodup (List.mem_filter.mp hd2sel).1 hd heq
        rw [hdd, hfalse] at hd2due
        exact absurd hd2due (by simp)
      constructor
      · intro hmem
        refine key (sufficientFor db.participants) ?_
        simpa [SweepResult.processedList, List.map_map, Function.comp, procEntry]
          using hmem
      · intro hmem
        refine key (fun d => !sufficientFor db.participants d) ?_
        simpa [SweepResult.skippedList, List.map_map, Function.comp, skipEntry]
          using hmem

/-- Database with one due draw (2 participants) and one unscheduled draw. -/
def dbC3 : DB :=
  { draws := [ { id := 1, draw_date := some 0, status := .active, language := "EN" },
               { id := 2, draw_date := none, status := .active, language := "EN" } ]
    participants := [mkP 4 1 "d@example.com", mkP 5 1 "e@example.com"] }

/-- Witness for C3 on the concrete database dbC3. -/
theorem sweep_selection_exact_witness :
    List.Perm
      (((execute_scheduled_draw_task dbC3 0 none).1.processedList.map (fun e => e.draw_id)) ++
        ((execute_scheduled_draw_task dbC3 0 none).1.skippedList.map (fun e => e.draw_id)))
      ((dbC3.draws.filter (dueFilter 0)).map (fun d => d.id)) :=
  (sweep_selection_exact dbC3 0 (by decide)).1

/-- C4: a selected draw with fewer than 3 participants is recorded in the
skipped list with reason insufficient_participants and its participant
count, is not dispatched to execution, and its row (in particular its
status field) is left unchanged in the database, so an Active draw remains
Active and a later sweep can retry it. -/
theorem sweep_skips_insufficient (db : DB) (now : Int)
    (hnodup : (db.draws.map (fun d => d.id)).Nodup)
    (d : DrawRow) (hd : d ∈ db.draws) (hdue : dueFilter now d = true)
    (hcnt : countFor db.participants d.id < 3) :
    skipEntry db.participants d ∈ (execute_scheduled_draw_task db now none).1.skippedList ∧
    (skipEntry db.participants d).reason = "insufficient_participants" ∧
    (skipEntry db.participants d).participant_count = countFor db.participants d.id ∧
    d.id ∉ (execute_scheduled_draw_task db now none).2.2 ∧
    d ∈ (execute_scheduled_draw_task db now none).2.1.draws := by
  have hdsel : d ∈ db.draws.filter (dueFilter now) := List.mem_filter.mpr ⟨hd, hdue⟩
  have hselne : db.draws.filter (dueFilter now) ≠ [] := List.ne_nil_of_mem hdsel
  rw [task_spec db now hselne]
  have hnsuff : sufficientFor db.participants d = false := by
    simp only [sufficientFor, decide_eq_false_iff_not]
    omega
  have hnotin : d.id ∉ ((db.draws.filter (dueFilter now)).filter
      (sufficientFor db.participants)).map (fun x => x.id) := by
    intro hmem
    rcases List.mem_map.mp hmem with ⟨d2, hd2, heq⟩
    have hsuf2 := (List.mem_filter.mp hd2).2
    have hdd : d2 = d := List.inj_on_of_nodup_map hnodup
      (List.mem_filter.mp (List.mem_filter.mp hd2).1).1 hd heq
    rw [hdd, hnsuff] at hsuf2
    exact absurd hsuf2 (by simp)
  exact ⟨List.mem_map_of_mem _ (List.mem_filter.mpr ⟨hdsel, by simp [hnsuff]⟩),
    rfl, rfl, hnotin, mem_claimAll_of_not_mem db _ d hd hnotin⟩

/-- Database with one due Active draw having only 2 participants. -/
def dbC4 : DB :=
  { draws := [ { id := 1, draw_date := some 0, status := .active, language := "EN" } ]
    participants := [mkP 1 1 "a@example.com", mkP 2 1 "b@example.com"] }

/-- Witness for C4 on the concrete database dbC4: the 2-participant due
draw is recorded as skipped and its Active row is untouched. -/
theorem sweep_skips_insufficient_witness :
    skipEntry dbC4.participants
        { id := 1, draw_date := some 0, status := .active, language := "EN" }
      ∈ (execute_scheduled_draw_task dbC4 0 none).1.skippedList ∧
    { id := 1, draw_date := some 0, status := DrawStatus.active, language := "EN" }
      ∈ (execute_scheduled_draw_task dbC4 0 none).2.1.draws := by
  have h := sweep_skips_insufficient dbC4 0 (by decide)
    { id := 1, draw_date := some 0, status := .active, language := "EN" }
    (by decide) (by decide) (by decide)
  exact ⟨h.1, h.2.2.2.2⟩

theorem claimAll_status (db : DB) (ids : List Nat) :
    ∀ row ∈ (claimAll db ids).draws, row.id ∈ ids →
      row.status = DrawStatus.in_progress := by
  intro row hrow hid
  simp only [claimAll, List.mem_map] at hrow
  rcases hrow with ⟨r, hr, heq⟩
  by_cases h : r.id ∈ ids
  · rw [← heq]
    simp [h]
  · rw [← heq] at hid
    simp only [if_neg h] at hid
    exact absurd hid h

/-- C9: when an unexpected error interrupts a sweep run after some draws
were already transitioned to InProgress and dispatched, the task still
returns an error summary instead of raising, but that summary reports
draws_processed as the literal 0 while the already-committed InProgress
transitions and dispatches stand, so the returned count can understate
the work done in that run. -/
theorem sweep_error_understates (db : DB) (now : Int) (k : Nat)
    (hk : k < (db.draws.filter (dueFilter now)).length) :
    (execute_scheduled_draw_task db now (some k)).1
      = SweepResult.error "Error executing scheduled draws" ∧
    (execute_scheduled_draw_task db now (some k)).1.statusStr = "error" ∧
    (execute_scheduled_draw_task db now (some k)).1.draws_processed = 0 ∧
    (execute_scheduled_draw_task db now (some k)).2.2 =
      (((db.draws.filter (dueFilter now)).take k).filter
        (sufficientFor db.participants)).map (fun d => d.id) ∧
    (∀ i ∈ (execute_scheduled_draw_task db now (some k)).2.2,
      ∀ row ∈ (execute_scheduled_draw_task db now (some k)).2.1.draws,
        row.id = i → row.status = DrawStatus.in_progress) := by
  rw [task_spec_fault db now k hk]
  refine ⟨rfl, rfl, rfl, rfl, ?_⟩
  intro i hi row hrow hrid
  exact claimAll_status db _ row hrow (hrid ▸ hi)

/-- Database with two due Active draws, each with 3 participants. -/
def dbC9 : DB :=
  { draws := [ { id := 1, draw_date := some 0, status := .active, language := "EN" },
               { id := 2, draw_date := some 0, status := .active, language := "EN" } ]
    participants := [mkP 1 1 "a@example.com", mkP 2 1 "b@example.com", mkP 3 1 "c@example.com",
                     mkP 4 2 "d@example.com", mkP 5 2 "e@example.com", mkP 6 2 "f@example.com"] }

/-- Witness for C9: on dbC9, a fault at the second candidate leaves
draws_processed = 0 in the error summary although draw 1 was already
dispatched. -/
theorem sweep_error_understates_witness :
    (execute_scheduled_draw_task dbC9 0 (some 1)).1.draws_processed = 0 ∧
    (execute_scheduled_draw_task dbC9 0 (some 1)).2.2 =
      (((dbC9.draws.filter (dueFilter 0)).take 1).filter
        (sufficientFor dbC9.participants)).map (fun d => d.id) := by
  have h := sweep_error_understates dbC9 0 1 (by decide)
  exact ⟨h.2.2.1, h.2.2.2.1⟩

/-- C10: for every language value and wall-clock time, normalize applied to
a null input date returns null without raising and without performing any
validation, so a draw with no scheduled date always passes schedule
validation. -/
theorem normalize_none_ok (nowMicros : Int) (language : String) :
    normalize_and_validate_draw_date nowMicros none language = Except.ok none := rfl

/-- Wall clock 2026-01-01 00:00:00 UTC. -/
def nowC5 : Int := instantMicros
  { year := 2026, month := 1, day := 1, hour := 0, minute := 0, second := 0,
    microsecond := 0, tzOffsetMinutes := some 0 }

/-- An aware UTC datetime half a millisecond after an exact hour. -/
def dC5 : PyDateTime :=
  { year := 2026, month := 6, day := 1, hour := 13, minute := 0, second := 0,
    microsecond := 500000, tzOffsetMinutes := some 0 }

/-- Counterexample to C5 as stated: 2026-06-01 13:00:00.500000 UTC is in
the future, in the current year, and has minute = second = 0, so
normalize accepts it, although the instant is not exactly on an hour
boundary (its microsecond field is nonzero). -/
theorem normalize_hour_boundary_counterexample :
    normalize_and_validate_draw_date nowC5 (some dC5) "EN" = Except.ok (some dC5) ∧
    ¬ onHourBoundary dC5 :=
  ⟨rfl, by decide⟩

/-- C5 amended: for every non-null input date and language, normalize
raises a validation error if and only if the resulting UTC instant is not
strictly in the future of the call time, or its year differs from the
current UTC year, or its minute or second component is nonzero; the
sub-second (microsecond) component is not validated, so an accepted
instant need not lie exactly on an hour boundary.  Otherwise it returns
the UTC instant. -/
theorem normalize_validation_amended (nowMicros : Int) (d : PyDateTime)
    (language : String) :
    ((∃ e, normalize_and_validate_draw_date nowMicros (some d) language
        = Except.error e) ↔
      (instantMicros (astimezoneUtc (attachTimezone d language)) ≤ nowMicros ∨
        (astimezoneUtc (attachTimezone d language)).year ≠ (utcOfMicros nowMicros).year ∨
        (astimezoneUtc (attachTimezone d language)).minute ≠ 0 ∨
        (astimezoneUtc (attachTimezone d language)).second ≠ 0)) ∧
    (¬ (instantMicros (astimezoneUtc (attachTimezone d language)) ≤ nowMicros ∨
        (astimezoneUtc (attachTimezone d language)).year ≠ (utcOfMicros nowMicros).year ∨
        (astimezoneUtc (attachTimezone d language)).minute ≠ 0 ∨
        (astimezoneUtc (attachTimezone d language)).second ≠ 0) →
      normalize_and_validate_draw_date nowMicros (some d) language =
        Except.ok (some (astimezoneUtc (attachTimezone d language)))) := by
  unfold normalize_and_validate_draw_date
  dsimp only
  by_cases h1 : instantMicros (astimezoneUtc (attachTimezone d language)) ≤ nowMicros
  · rw [if_pos h1]
    exact ⟨⟨fun _ => Or.inl h1, fun _ => ⟨_, rfl⟩⟩,
      fun hn => absurd (Or.inl h1) hn⟩
  · rw [if_neg h1]
    by_cases h2 : (astimezoneUtc (attachTimezone d language)).year
        ≠ (utcOfMicros nowMicros).year
    · rw [if_pos h2]
      exact ⟨⟨fun _ => Or.inr (Or.inl h2), fun _ => ⟨_, rfl⟩⟩,
        fun hn => absurd (Or.inr (Or.inl h2)) hn⟩
    · rw [if_neg h2]
      by_cases h3 : (astimezoneUtc (attachTimezone d language)).minute ≠ 0 ∨
          (astimezoneUtc (attachTimezone d language)).second ≠ 0
      · rw [if_pos h3]
        refine ⟨⟨fun _ => ?_, fun _ => ⟨_, rfl⟩⟩, fun hn => ?_⟩
        · rcases h3 with h3 | h3
          · exact Or.inr (Or.inr (Or.inl h3))
          · exact Or.inr (Or.inr (Or.inr h3))
        · rcases h3 with h3 | h3
          · exact absurd (Or.inr (Or.inr (Or.inl h3))) hn
          · exact absurd (Or.inr (Or.inr (Or.inr h3))) hn
      · rw [if_neg h3]
        push_neg at h3
        refine ⟨⟨?_, ?_⟩, fun _ => rfl⟩
        · rintro ⟨e, he⟩
          exact absurd he (by simp)
        · rintro (hc | hc | hc | hc)
          · exact absurd hc h1
          · exact absurd hc h2
          · exact absurd h3.1 hc
          · exact absurd h3.2 hc

/-- Witness for the amended C5: a valid future date on the hour is
accepted and returned in UTC. -/
theorem normalize_validation_amended_witness :
    normalize_and_validate_draw_date nowC5
      (some { year := 2026, month := 6, day := 1, hour := 13, minute := 0,
              second := 0, microsecond := 0, tzOffsetMinutes := some 0 }) "EN" =
      Except.ok (some (astimezoneUtc (attachTimezone
        { year := 2026, month := 6, day := 1, hour := 13, minute := 0,
          second := 0, microsecond := 0, tzOffsetMinutes := some 0 } "EN"))) :=
  (normalize_validation_amended nowC5
    { year := 2026, month := 6, day := 1, hour := 13, minute := 0,
      second := 0, microsecond := 0, tzOffsetMinutes := some 0 } "EN").2 (by decide)

/-- Wall clock 2026-01-01 00:00:00 UTC. -/
def nowC6 : Int := instantMicros
  { year := 2026, month := 1, day := 1, hour := 0, minute := 0, second := 0,
    microsecond := 0, tzOffsetMinutes := some 0 }

/-- A naive wall-clock 13:00 on a winter day. -/
def dC6naive : PyDateTime :=
  { year := 2026, month := 1, day := 15, hour := 13, minute := 0, second := 0,
    microsecond := 0, tzOffsetMinutes := none }

/-- The same instant read in UTC: 10:00. -/
def dC6utc : PyDateTime :=
  { year := 2026, month := 1, day := 15, hour := 10, minute := 0, second := 0,
    microsecond := 0, tzOffsetMinutes := some 0 }

/-- C6: a date without an offset is interpreted as Europe/Istanbul civil
time when the language (case-insensitively) is TR — it gets the +03:00
offset, so the denoted instant is the civil reading minus three hours —
and as UTC when the language is EN; a date that carries an offset is used
as-is (the offset is honored), and any value normalize accepts is the UTC
conversion of the attached date; in particular a naive 13:00 with
language TR maps to 10:00 UTC (Istanbul has been fixed at UTC+3 since
2016, so this holds in winter and all year). -/
theorem normalize_timezone_policy :
    (∀ (d : PyDateTime) (language : String), d.tzOffsetMinutes = none →
      pyUpper language = "TR" →
      attachTimezone d language
          = { d with tzOffsetMinutes := some istanbulOffsetMinutes } ∧
        instantMicros (attachTimezone d language)
          = naiveMicros d - 180 * 60 * 1000000) ∧
    (∀ d : PyDateTime, d.tzOffsetMinutes = none →
      attachTimezone d "EN" = { d with tzOffsetMinutes := some 0 } ∧
        instantMicros (attachTimezone d "EN") = naiveMicros d) ∧
    (∀ (d : PyDateTime) (language : String), d.tzOffsetMinutes ≠ none →
      attachTimezone d language = d) ∧
    (∀ (nowMicros : Int) (d : PyDateTime) (language : String) (u : PyDateTime),
      normalize_and_validate_draw_date nowMicros (some d) language
          = Except.ok (some u) →
      u = astimezoneUtc (attachTimezone d language) ∧ u.tzOffsetMinutes = some 0) ∧
    normalize_and_validate_draw_date nowC6 (some dC6naive) "TR"
      = Except.ok (some dC6utc) := by
  refine ⟨?_, ?_, ?_, ?_, ?_⟩
  · intro d language hnone htr
    have hA : attachTimezone d language
        = { d with tzOffsetMinutes := some istanbulOffsetMinutes } := by
      simp [attachTimezone, hnone, htr]
    refine ⟨hA, ?_⟩
    rw [hA]
    simp [instantMicros, naiveMicros, istanbulOffsetMinutes]
  · intro d hnone
    have hA : attachTimezone d "EN" = { d with tzOffsetMinutes := some 0 } := by
      simp [attachTimezone, hnone]
      intro hc
      exact absurd hc (by decide)
    refine ⟨hA, ?_⟩
    rw [hA]
    simp [instantMicros, naiveMicros]
  · intro d language hne
    cases hd : d.tzOffsetMinutes with
    | none => exact absurd hd hne
    | some off => simp [attachTimezone, hd]
  · intro nowMicros d language u h
    unfold normalize_and_validate_draw_date at h
    dsimp only at h
    split_ifs at h with h1 h2 h3
    have hu : u = astimezoneUtc (attachTimezone d language) :=
      (Option.some.inj (Except.ok.inj h)).symm
    exact ⟨hu, by rw [hu]; rfl⟩
  · rfl

/-- Witness for C6: the naive winter 13:00 with a lowercase tr language tag
gets the Istanbul offset, and the full normalizer maps the naive 13:00 TR
date to 10:00 UTC. -/
theorem normalize_timezone_policy_witness :
    attachTimezone dC6naive "tr"
        = { dC6naive with tzOffsetMinutes := some istanbulOffsetMinutes } ∧
    normalize_and_validate_draw_date nowC6 (some dC6naive) "TR"
        = Except.ok (some dC6utc) :=
  ⟨(normalize_timezone_policy.1 dC6naive "tr" rfl (by decide)).1,
    normalize_timezone_policy.2.2.2.2⟩

/-- A completed draw used by the notification scenarios. -/
def drawC7 : DrawRow := { id := 1, draw_date := none, status := .completed, language := "EN" }

/-- Database with drawC7 and its three participants. -/
def dbC7 : DB :=
  { draws := [drawC7]
    participants := [mkP 1 1 "a@example.com", mkP 2 1 "b@example.com", mkP 3 1 "c@example.com"] }

/-- Three draw results, the third referencing a missing receiver id. -/
def resultsC7 : List DrawResultRow :=
  [ { id := 1, giver_participant_id := 1, receiver_participant_id := 2 },
    { id := 2, giver_participant_id := 2, receiver_participant_id := 3 },
    { id := 3, giver_participant_id := 3, receiver_participant_id := 99 } ]

/-- The participants dictionary of dbC7. -/
def pdC7 : List (Nat × ParticipantRow) :=
  [(1, mkP 1 1 "a@example.com"), (2, mkP 2 1 "b@example.com"), (3, mkP 3 1 "c@example.com")]

/-- C7: the dispatcher skips a result whose giver or receiver id is missing
from the participants dictionary without attempting a send and without
recording anything for it — the run is identical to a run over only the
resolvable results; exactly the resolvable results are attempted, every
key of the returned mapping is the giver email of some resolvable result,
and on the spec's scenario (three results, one referencing a missing
participant) the task summary counts 2 sent out of 2 attempted. -/
theorem notify_skips_missing (transport : String → Bool) (draw : DrawRow)
    (draw_results : List DrawResultRow) (pd : List (Nat × ParticipantRow)) :
    send_draw_results_to_all_participants transport draw draw_results pd =
      send_draw_results_to_all_participants transport draw
        (draw_results.filter (resolvable pd)) pd ∧
    (send_draw_results_to_all_participants transport draw draw_results pd).2 =
      (draw_results.filter (resolvable pd)).map
        (fun dr => (dr.giver_participant_id, dr.receiver_participant_id)) ∧
    (∀ e : String,
      dictGet (send_draw_results_to_all_participants transport draw
        draw_results pd).1 e ≠ none →
      e ∈ resolvedGiverEmails pd draw_results) ∧
    send_draw_result_emails_task dbC7 1 resultsC7 (fun _ => true) false
      = (.sent 2 2, dbC7) := by
  refine ⟨?_, ?_, ?_, rfl⟩
  · exact notifyLoop_filter transport draw draw_results pd [] []
  · rw [send_draw_results_to_all_participants, notifyLoop_attempts]
    simp
  · intro e he
    rw [send_draw_results_to_all_participants, notifyLoop_mapping] at he
    by_cases hmem : e ∈ resolvedGiverEmails pd draw_results
    · exact hmem
    · rw [if_neg hmem] at he
      simp [dictGet] at he

/-- Witness for C7: on the concrete scenario, the giver email of a
resolvable result is a recorded key. -/
theorem notify_skips_missing_witness :
    "a@example.com" ∈ resolvedGiverEmails pdC7 resultsC7 :=
  (notify_skips_missing (fun _ => true) drawC7 resultsC7 pdC7).2.2.1
    "a@example.com" (by decide)

/-- C8: transport failures are isolated per participant: the attempted
sends do not depend on the transport outcomes at all; each resolvable
result's giver email is recorded in the returned mapping with its own
transport outcome (false for a failed send, without aborting the others);
and the email step of process_draw returns its summary leaving the
database untouched on every path, so no notification failure rolls back
the committed draw and draw-result state.  Concretely, with a transport
failing only for b@example.com, b@example.com is recorded false while
a@example.com is still attempted and recorded true. -/
theorem notify_isolates_failures (draw : DrawRow)
    (draw_results : List DrawResultRow) (pd : List (Nat × ParticipantRow)) :
    (∀ t1 t2 : String → Bool,
      (send_draw_results_to_all_participants t1 draw draw_results pd).2 =
        (send_draw_results_to_all_participants t2 draw draw_results pd).2) ∧
    (∀ (transport : String → Bool) (e : String),
      dictGet (send_draw_results_to_all_participants transport draw
        draw_results pd).1 e =
        if e ∈ resolvedGiverEmails pd draw_results then some (transport e) else none) ∧
    (∀ (db : DB) (draw_id : Nat) (transport : String → Bool) (fault : Bool),
      (send_draw_result_emails_task db draw_id draw_results transport fault).2 = db) ∧
    dictGet (send_draw_results_to_all_participants
      (fun e => !(e == "b@example.com")) drawC7 resultsC7 pdC7).1 "b@example.com"
        = some false ∧
    dictGet (send_draw_results_to_all_participants
      (fun e => !(e == "b@example.com")) drawC7 resultsC7 pdC7).1 "a@example.com"
        = some true := by
  refine ⟨?_, ?_, ?_, rfl, rfl⟩
  · intro t1 t2
    rw [send_draw_results_to_all_participants, notifyLoop_attempts,
      send_draw_results_to_all_participants, notifyLoop_attempts]
  · intro transport e
    rw [send_draw_results_to_all_participants, notifyLoop_mapping]
    by_cases hmem : e ∈ resolvedGiverEmails pd draw_results
    · rw [if_pos hmem, if_pos hmem]
    · rw [if_neg hmem, if_neg hmem]
      rfl
  · intro db draw_id transport fault
    cases fault with
    | true => rfl
    | false =>
      cases hfind : db.draws.find? (fun d => d.id == draw_id) with
      | none => simp [send_draw_result_emails_task, hfind]
      | some draw2 => simp [send_draw_result_emails_task, hfind]
